import Mathlib

/-!
Verification development for the survey-intake console program (src/main.py).

The program collects questionnaire records (age, gender, education, yes/no
answer) through validating console readers, stores them in a sqlite table
with CHECK constraints, lists them in insertion order, and reports three
fixed counts.  Below is a shallow embedding of its data model, store layer,
input readers and menu loop, followed by theorems about each component.
-/

namespace Population

/-! ### Data model (enums and the Form dataclass of src/main.py) -/

/-- Mirrors `class Gender(str, Enum)`: MALE = 'м', FEMALE = 'ж'. -/
inductive Gender
  | male
  | female
deriving DecidableEq, Repr

/-- The single-character code stored for a gender (the enum `.value`). -/
def Gender.value : Gender → String
  | .male => "м"
  | .female => "ж"

/-- Iteration order of `for e in Gender` (declaration order of the enum). -/
def Gender.members : List Gender := [.male, .female]

/-- Mirrors `class Education(str, Enum)`: PRIMARY = 'н', SECONDARY = 'с',
HIGHER = 'в'. -/
inductive Education
  | primary
  | secondary
  | higher
deriving DecidableEq, Repr

/-- The single-character code stored for an education level. -/
def Education.value : Education → String
  | .primary => "н"
  | .secondary => "с"
  | .higher => "в"

/-- Iteration order of `for e in Education`. -/
def Education.members : List Education := [.primary, .secondary, .higher]

/-- Mirrors `@dataclass class Form` (the typed record assembled by the
input layer). -/
structure Form where
  age : Int
  gender : Gender
  education : Education
  answer_yes : Bool
deriving DecidableEq, Repr

/-! ### Store layer (SCHEMA_SQL, INSERT, SELECT of src/main.py)

A stored row holds the values actually written to the `forms` table:
the age integer, the one-character gender and education codes, and the
0/1 answer flag.  The `id` column is kept separately as the key of each
row in the database state. -/

/-- One row of the `forms` table without its `id` column. -/
structure Row where
  age : Int
  gender : String
  education : String
  answer_yes : Int
deriving DecidableEq, Repr

/-- The CHECK constraints of SCHEMA_SQL:
`age BETWEEN 0 AND 120`, `gender IN ('м','ж')`,
`education IN ('н','с','в')`, `answer_yes IN (0,1)`. -/
def Row.valid (r : Row) : Bool :=
  (decide (0 ≤ r.age) && decide (r.age ≤ 120)) &&
  (r.gender == "м" || r.gender == "ж") &&
  (r.education == "н" || r.education == "с" || r.education == "в") &&
  (r.answer_yes == 0 || r.answer_yes == 1)

/-- The row written by `add_form`:
`(age, gender.value, education.value, int(answer))`. -/
def Form.toRow (f : Form) : Row :=
  ⟨f.age, f.gender.value, f.education.value, if f.answer_yes then 1 else 0⟩

/-- Database state: the rows of the `forms` table keyed by their
AUTOINCREMENT `id`, plus the next id to be assigned. -/
structure DBState where
  nextId : Nat
  rows : List (Nat × Row)
deriving DecidableEq, Repr

/-- The state after `open_db` on a fresh file (AUTOINCREMENT starts at 1). -/
def emptyDB : DBState := ⟨1, []⟩

/-- Store-level failure: a CHECK constraint of SCHEMA_SQL was violated. -/
inductive DbError
  | constraintViolation
deriving DecidableEq, Repr

/-- `INSERT INTO forms(age, gender, education, answer_yes) VALUES (?,?,?,?)`:
appends the row with the next AUTOINCREMENT id, or fails if a CHECK
constraint rejects it. -/
def insertRow (st : DBState) (r : Row) : Except DbError DBState :=
  if r.valid then
    .ok ⟨st.nextId + 1, st.rows ++ [(st.nextId, r)]⟩
  else
    .error .constraintViolation

/-- Sorted insertion by id, the helper of `sortById`. -/
def insertById (p : Nat × Row) : List (Nat × Row) → List (Nat × Row)
  | [] => [p]
  | q :: qs => if p.1 ≤ q.1 then p :: q :: qs else q :: insertById p qs

/-- Sorting by the `id` column, modelling `ORDER BY id`. -/
def sortById : List (Nat × Row) → List (Nat × Row)
  | [] => []
  | p :: ps => insertById p (sortById ps)

/-- `SELECT age, gender, education, answer_yes FROM forms ORDER BY id`
(the query of `list_forms`). -/
def listAll (st : DBState) : List Row :=
  (sortById st.rows).map Prod.snd

/-- `SELECT COUNT(*) FROM forms WHERE <predicate>` (order-independent). -/
def countWhere (p : Row → Bool) (st : DBState) : Nat :=
  (st.rows.map Prod.snd).countP p

/-- Ids strictly increase along the stored list and stay below `nextId`;
this holds for `emptyDB` and is preserved by `insertRow`. -/
def idsOk (st : DBState) : Prop :=
  st.rows.Pairwise (fun a b => a.1 < b.1) ∧ ∀ p ∈ st.rows, p.1 < st.nextId

/-! ### Statistics (`show_stats` of src/main.py) -/

/-- `gender='м' AND age>40 AND education='в' AND answer_yes=1`. -/
def statMen40Yes (r : Row) : Bool :=
  r.gender == "м" && decide (40 < r.age) && r.education == "в" && r.answer_yes == 1

/-- `gender='ж' AND age<30 AND education='с' AND answer_yes=0`. -/
def statWomen30No (r : Row) : Bool :=
  r.gender == "ж" && decide (r.age < 30) && r.education == "с" && r.answer_yes == 0

/-- `gender='м' AND age<25 AND education='н' AND answer_yes=1`. -/
def statMen25Yes (r : Row) : Bool :=
  r.gender == "м" && decide (r.age < 25) && r.education == "н" && r.answer_yes == 1

/-! ### Models of the Python builtins used by the readers

The readers call `str.lower`, `str.strip` and `int(...)`.  These are
modelled here restricted to the character ranges the program can meet:
ASCII plus the Cyrillic letters of the prompts and option codes, and
ASCII decimal digits for `int`. -/

/-- Python `str.lower` on one character, restricted to ASCII letters and
the Cyrillic block А-Я / Ё (sufficient for the program's alphabet; other
characters are left unchanged, as `lower` leaves them). -/
def pyCharLower (c : Char) : Char :=
  if 65 ≤ c.toNat ∧ c.toNat ≤ 90 then Char.ofNat (c.toNat + 32)
  else if 1040 ≤ c.toNat ∧ c.toNat ≤ 1071 then Char.ofNat (c.toNat + 32)
  else if c.toNat = 1025 then Char.ofNat 1105
  else c

/-- Python `str.lower` on a string. -/
def pyLower (s : String) : String :=
  ⟨s.data.map pyCharLower⟩

/-- The whitespace characters stripped by Python `str.strip()` and by
`int()` (ASCII whitespace: space, tab, newline, CR, VT, FF). -/
def isPySpace (c : Char) : Bool :=
  c == ' ' || c == '\t' || c == '\n' || c == '\r' ||
  c == Char.ofNat 11 || c == Char.ofNat 12

/-- Python `str.strip()`: drop leading and trailing whitespace. -/
def pyStrip (s : String) : String :=
  ⟨((s.data.dropWhile isPySpace).reverse.dropWhile isPySpace).reverse⟩

/-- Value of an ASCII decimal digit. -/
def digitVal (c : Char) : Nat := c.toNat - 48

/-- Digits of an integer literal after the first digit: a digit, or an
underscore that must be followed by a digit (Python's grouping rule). -/
def parseDigitsGo (acc : Nat) : List Char → Option Nat
  | [] => some acc
  | '_' :: c :: cs =>
      if c.isDigit then parseDigitsGo (acc * 10 + digitVal c) cs else none
  | ['_'] => none
  | c :: cs =>
      if c.isDigit then parseDigitsGo (acc * 10 + digitVal c) cs else none

/-- A nonempty run of ASCII digits with optional underscore grouping. -/
def parseDigits : List Char → Option Nat
  | [] => none
  | c :: cs => if c.isDigit then parseDigitsGo (digitVal c) cs else none

/-- Python `int(s)`: surrounding whitespace is tolerated, then an optional
sign and a nonempty digit run; anything else raises `ValueError`, modelled
as `none`.  (Non-ASCII digits are out of the program's input alphabet and
are not modelled.) -/
def pyParseInt (s : String) : Option Int :=
  match (s.data.dropWhile isPySpace).reverse.dropWhile isPySpace |>.reverse with
  | '+' :: rest => (parseDigits rest).map Int.ofNat
  | '-' :: rest => (parseDigits rest).map (fun n => -(Int.ofNat n : Int))
  | rest => (parseDigits rest).map Int.ofNat

/-! ### Input readers (`read_int`, `read_enum`, `read_yes_no`) -/

/-- Reprompt message of `read_int` for an in-range failure
(`f'Введите число от {lo} до {hi}.'`). -/
def rangeMessage (lo hi : Int) : String :=
  "Введите число от " ++ toString lo ++ " до " ++ toString hi ++ "."

/-- Reprompt message of `read_int` for a `ValueError`. -/
def nonNumericMessage : String := "Ошибка: требуется целое число."

/-- Outcome of one iteration of a reader loop: a value is returned, or a
message is printed and the loop repeats. -/
inductive ReadIntStep
  | accept (n : Int)
  | reject (msg : String)
deriving DecidableEq, Repr

/-- One iteration of `read_int`'s `while True` body on one input token. -/
def readIntStep (lo hi : Int) (tok : String) : ReadIntStep :=
  match pyParseInt tok with
  | some n => if lo ≤ n ∧ n ≤ hi then .accept n else .reject (rangeMessage lo hi)
  | none => .reject nonNumericMessage

/-- `read_int` run against a finite stream of input tokens; `none` means
the stream was exhausted while the loop was still reprompting. -/
def readIntFrom (lo hi : Int) : List String → Option (Int × List String)
  | [] => none
  | t :: ts =>
      match readIntStep lo hi t with
      | .accept n => some (n, ts)
      | .reject _ => readIntFrom lo hi ts

/-- One iteration of `read_enum`'s loop: lower-case the token and return
the first member whose `.value` equals it. -/
def readEnumStep {α : Type} (members : List α) (value : α → String)
    (tok : String) : Option α :=
  members.find? (fun e => pyLower tok == value e)

/-- `read_enum` run against a finite stream of input tokens. -/
def readEnumFrom {α : Type} (members : List α) (value : α → String) :
    List String → Option (α × List String)
  | [] => none
  | t :: ts =>
      match readEnumStep members value t with
      | some e => some (e, ts)
      | none => readEnumFrom members value ts

/-- Outcome of one iteration of `read_yes_no`'s loop. -/
inductive YesNoStep
  | accept (b : Bool)
  | reject
deriving DecidableEq, Repr

/-- One iteration of `read_yes_no`'s body: lower-case the token, accept
iff it is `'д'` or `'н'`, and map `'д'` to true. -/
def readYesNoStep (tok : String) : YesNoStep :=
  let val := pyLower tok
  if val = "д" ∨ val = "н" then .accept (val == "д") else .reject

/-- `read_yes_no` run against a finite stream of input tokens. -/
def readYesNoFrom : List String → Option (Bool × List String)
  | [] => none
  | t :: ts =>
      match readYesNoStep t with
      | .accept b => some (b, ts)
      | .reject => readYesNoFrom ts

/-- `add_form` minus the INSERT: run the four readers in order on the
input stream and assemble the row that will be written. -/
def addFormRun (toks : List String) : Option (Row × List String) :=
  match readIntFrom 0 120 toks with
  | none => none
  | some (age, toks1) =>
      match readEnumFrom Gender.members Gender.value toks1 with
      | none => none
      | some (g, toks2) =>
          match readEnumFrom Education.members Education.value toks2 with
          | none => none
          | some (e, toks3) =>
              match readYesNoFrom toks3 with
              | none => none
              | some (b, toks4) =>
                  some (⟨age, g.value, e.value, if b then 1 else 0⟩, toks4)

/-! ### Menu loop (`menu` and `main` of src/main.py) -/

/-- The operation selected by one menu choice (the if/elif chain of
`main`'s loop body). -/
inductive MenuAction
  | addRecord
  | listRecords
  | showStatistics
  | quit
  | unknown
deriving DecidableEq, Repr

/-- The two states of the loop: inside `while True`, or past `break`. -/
inductive LoopState
  | running
  | exited
deriving DecidableEq, Repr

/-- `menu()` returns the raw line with `.strip()` applied. -/
def menuChoice (raw : String) : String := pyStrip raw

/-- The dispatch on the returned choice in `main`'s loop body. -/
def dispatch (choice : String) : MenuAction :=
  if choice = "1" then .addRecord
  else if choice = "2" then .listRecords
  else if choice = "3" then .showStatistics
  else if choice = "0" then .quit
  else .unknown

/-- The loop state after an action: only `break` (choice `'0'`) exits. -/
def nextState : MenuAction → LoopState
  | .quit => .exited
  | _ => .running

/-- How one run of the `while True` loop can end: `break` on choice `'0'`,
an uncaught store exception, or blocking forever on exhausted input
(the run never terminates; `fuel` also bounds the iterations). -/
inductive LoopResult
  | quitOk (db : DBState)
  | blocked (db : DBState)
  | raised (e : DbError) (db : DBState)
deriving DecidableEq, Repr

/-- The `while True` loop of `main`: read a choice, dispatch, repeat.
A successful add is followed by `conn.commit()`, which in this embedding
is the identity on the state (the state already holds the written row). -/
def mainLoop : Nat → List String → DBState → LoopResult
  | 0, _, db => .blocked db
  | _ + 1, [], db => .blocked db
  | fuel + 1, raw :: toks, db =>
      match dispatch (menuChoice raw) with
      | .addRecord =>
          match addFormRun toks with
          | none => .blocked db
          | some (r, rest) =>
              match insertRow db r with
              | .ok db' => mainLoop fuel rest db'
              | .error e => .raised e db
      | .listRecords => mainLoop fuel toks db
      | .showStatistics => mainLoop fuel toks db
      | .quit => .quitOk db
      | .unknown => mainLoop fuel toks db

/-- What `main` leaves behind on a terminating run: the final state,
whether `conn.close()` ran, and the exception escaping, if any. -/
structure RunResult where
  db : DBState
  closed : Bool
  err : Option DbError
deriving DecidableEq, Repr

/-- `main`'s `try/finally`: whichever way the loop ends, `conn.close()`
runs in the `finally` block; an exception is re-raised after it.  A run
still blocked on input has not terminated, so it yields no result. -/
def mainRun (fuel : Nat) (toks : List String) (init : DBState) :
    Option RunResult :=
  match mainLoop fuel toks init with
  | .quitOk db => some ⟨db, true, none⟩
  | .blocked _ => none
  | .raised e db => some ⟨db, true, some e⟩

/-! ### Helper lemmas -/

theorem readIntStep_accept {lo hi n : Int} {tok : String}
    (h : readIntStep lo hi tok = .accept n) :
    pyParseInt tok = some n ∧ lo ≤ n ∧ n ≤ hi := by
  unfold readIntStep at h
  split at h
  · rename_i m hp
    split at h
    · rename_i hb
      cases h
      exact ⟨hp, hb⟩
    · cases h
  · cases h

theorem readIntFrom_bounds {lo hi n : Int} {toks rest : List String}
    (h : readIntFrom lo hi toks = some (n, rest)) : lo ≤ n ∧ n ≤ hi := by
  induction toks generalizing rest with
  | nil => simp [readIntFrom] at h
  | cons t ts ih =>
      unfold readIntFrom at h
      cases hs : readIntStep lo hi t with
      | accept m =>
          rw [hs] at h
          cases h
          exact (readIntStep_accept hs).2
      | reject msg =>
          rw [hs] at h
          exact ih h

theorem mkRow_valid (age : Int) (g : Gender) (e : Education) (b : Bool)
    (h0 : 0 ≤ age) (h1 : age ≤ 120) :
    (Row.mk age g.value e.value (if b then 1 else 0)).valid = true := by
  cases g <;> cases e <;> cases b <;>
    simp [Row.valid, Gender.value, Education.value] <;> omega

theorem insertRow_ok (st : DBState) (r : Row) (h : r.valid = true) :
    insertRow st r = .ok ⟨st.nextId + 1, st.rows ++ [(st.nextId, r)]⟩ := by
  simp [insertRow, h]

theorem insertRow_inv {st st' : DBState} {r : Row}
    (h : insertRow st r = .ok st') :
    r.valid = true ∧ st' = ⟨st.nextId + 1, st.rows ++ [(st.nextId, r)]⟩ := by
  unfold insertRow at h
  by_cases hv : r.valid = true
  · rw [if_pos hv] at h
    cases h
    exact ⟨hv, rfl⟩
  · rw [if_neg hv] at h
    cases h

theorem countWhere_insert {st st' : DBState} {r : Row} (p : Row → Bool)
    (h : insertRow st r = .ok st') :
    countWhere p st' = countWhere p st + (if p r then 1 else 0) := by
  obtain ⟨-, rfl⟩ := insertRow_inv h
  simp [countWhere, List.countP_append, List.countP_cons]

theorem insertById_eq_cons {p : Nat × Row} {l : List (Nat × Row)}
    (h : ∀ q ∈ l, p.1 ≤ q.1) : insertById p l = p :: l := by
  cases l with
  | nil => rfl
  | cons q qs => rw [insertById, if_pos (h q (List.mem_cons_self q qs))]

theorem sortById_of_pairwise {l : List (Nat × Row)}
    (h : l.Pairwise (fun a b => a.1 ≤ b.1)) : sortById l = l := by
  induction l with
  | nil => rfl
  | cons p ps ih =>
      rw [List.pairwise_cons] at h
      rw [sortById, ih h.2, insertById_eq_cons h.1]

theorem listAll_eq_rows {st : DBState} (h : idsOk st) :
    listAll st = st.rows.map Prod.snd := by
  have hle : st.rows.Pairwise (fun a b => a.1 ≤ b.1) :=
    h.1.imp (fun hab => le_of_lt hab)
  rw [listAll, sortById_of_pairwise hle]

theorem idsOk_insert {st st' : DBState} {r : Row} (hst : idsOk st)
    (h : insertRow st r = .ok st') : idsOk st' := by
  obtain ⟨-, rfl⟩ := insertRow_inv h
  obtain ⟨hpw, hbound⟩ := hst
  constructor
  · rw [List.pairwise_append]
    refine ⟨hpw, List.pairwise_singleton _ _, ?_⟩
    intro a ha b hb
    rw [List.mem_singleton] at hb
    subst hb
    exact hbound a ha
  · intro p hp
    rw [List.mem_append, List.mem_singleton] at hp
    rcases hp with hp | hp
    · exact Nat.lt_succ_of_lt (hbound p hp)
    · subst hp
      exact Nat.lt_succ_self _

theorem idsOk_empty : idsOk emptyDB := by
  constructor
  · exact List.Pairwise.nil
  · intro p hp
    simp [emptyDB] at hp

theorem addFormRun_valid {toks rest : List String} {r : Row}
    (h : addFormRun toks = some (r, rest)) : r.valid = true := by
  unfold addFormRun at h
  split at h
  · cases h
  · rename_i age toks1 h1
    split at h
    · cases h
    · rename_i g toks2 h2
      split at h
      · cases h
      · rename_i e toks3 h3
        split at h
        · cases h
        · rename_i b toks4 h4
          cases h
          obtain ⟨hlo, hhi⟩ := readIntFrom_bounds h1
          exact mkRow_valid age g e b hlo hhi

theorem mainLoop_no_raise (fuel : Nat) (toks : List String) (db : DBState)
    (e : DbError) (db' : DBState) : mainLoop fuel toks db ≠ .raised e db' := by
  induction fuel generalizing toks db with
  | zero => simp [mainLoop]
  | succ n ih =>
      cases toks with
      | nil => simp [mainLoop]
      | cons raw ts =>
          rw [mainLoop]
          split
          · split
            · simp
            · rename_i r rest ha
              split
              · exact ih _ _
              · rename_i e2 heq
                rw [insertRow_ok _ _ (addFormRun_valid ha)] at heq
                cases heq
          · exact ih ts db
          · exact ih ts db
          · simp
          · exact ih ts db

/-- Heads of the two `read_int` reprompt messages, used to tell them apart. -/
theorem rangeMessage_head (lo hi : Int) :
    (rangeMessage lo hi).data.head? = some 'В' := rfl

/-- The two `read_int` reprompt messages are distinct for every range. -/
theorem messages_distinct (lo hi : Int) :
    rangeMessage lo hi ≠ nonNumericMessage := by
  intro h
  have hd : (rangeMessage lo hi).data.head? = some 'О' := by
    rw [h]; exact rfl
  have hc := (rangeMessage_head lo hi).symm.trans hd
  exact absurd hc (by decide)

theorem readEnumStep_isSome {α : Type} (members : List α) (value : α → String)
    (tok : String) :
    (readEnumStep members value tok).isSome = true ↔
      pyLower tok ∈ members.map value := by
  rw [readEnumStep, List.find?_isSome]
  constructor
  · rintro ⟨e, he, hbeq⟩
    rw [List.mem_map]
    exact ⟨e, he, (eq_of_beq hbeq).symm⟩
  · intro hm
    rw [List.mem_map] at hm
    obtain ⟨e, he, hv⟩ := hm
    exact ⟨e, he, beq_iff_eq.mpr hv.symm⟩

theorem readEnumStep_value {α : Type} {members : List α} {value : α → String}
    {tok : String} {e : α}
    (h : readEnumStep members value tok = some e) : value e = pyLower tok := by
  rw [readEnumStep] at h
  have hb := @List.find?_some _ (fun x => pyLower tok == value x) e members h
  have hb2 : (pyLower tok == value e) = true := hb
  exact (eq_of_beq hb2).symm

/-! ### Claims -/

/-- C1: for every reachable store state and every valid Response record
(age in range; the other three fields are in-domain by type), inserting
the record and then listing all records yields the previous listing with
the new record appended with all four fields unchanged, so the listing is
in insertion order. -/
theorem claim1_insert_then_listAll (st : DBState) (f : Form)
    (hids : idsOk st) (h0 : 0 ≤ f.age) (h1 : f.age ≤ 120) :
    ∃ st', insertRow st (Form.toRow f) = .ok st' ∧
      listAll st' = listAll st ++ [Form.toRow f] ∧
      Form.toRow f ∈ listAll st' ∧ idsOk st' := by
  have hv : (Form.toRow f).valid = true := by
    obtain ⟨age, g, e, b⟩ := f
    exact mkRow_valid age g e b h0 h1
  have hins := insertRow_ok st (Form.toRow f) hv
  have hids' := idsOk_insert hids hins
  have hlist : listAll ⟨st.nextId + 1, st.rows ++ [(st.nextId, Form.toRow f)]⟩
      = listAll st ++ [Form.toRow f] := by
    rw [listAll_eq_rows hids', listAll_eq_rows hids]
    simp
  exact ⟨_, hins, hlist, by rw [hlist]; simp, hids'⟩

/-- Witness for C1 at a concrete record and the empty store. -/
theorem claim1_witness :
    ∃ st', insertRow emptyDB (Form.toRow ⟨30, .male, .primary, true⟩) = .ok st' ∧
      listAll st' = listAll emptyDB ++ [Form.toRow ⟨30, .male, .primary, true⟩] ∧
      Form.toRow ⟨30, .male, .primary, true⟩ ∈ listAll st' ∧ idsOk st' :=
  claim1_insert_then_listAll emptyDB ⟨30, .male, .primary, true⟩ idsOk_empty
    (by decide) (by decide)

/-- C2: each statistic is the four-clause conjunction given in
`statMen40Yes`, `statWomen30No`, `statMen25Yes`; a successful insert of a
row satisfying a statistic's four clauses raises that count by exactly
one, and a successful insert of a row violating some clause leaves that
count unchanged. -/
theorem claim2_stat_counts (st st' : DBState) (r : Row)
    (h : insertRow st r = .ok st') :
    ((statMen40Yes r = true →
        countWhere statMen40Yes st' = countWhere statMen40Yes st + 1) ∧
     (statMen40Yes r = false →
        countWhere statMen40Yes st' = countWhere statMen40Yes st)) ∧
    ((statWomen30No r = true →
        countWhere statWomen30No st' = countWhere statWomen30No st + 1) ∧
     (statWomen30No r = false →
        countWhere statWomen30No st' = countWhere statWomen30No st)) ∧
    ((statMen25Yes r = true →
        countWhere statMen25Yes st' = countWhere statMen25Yes st + 1) ∧
     (statMen25Yes r = false →
        countWhere statMen25Yes st' = countWhere statMen25Yes st)) := by
  have h1 := countWhere_insert statMen40Yes h
  have h2 := countWhere_insert statWomen30No h
  have h3 := countWhere_insert statMen25Yes h
  refine ⟨⟨fun hb => ?_, fun hb => ?_⟩, ⟨fun hb => ?_, fun hb => ?_⟩,
    ⟨fun hb => ?_, fun hb => ?_⟩⟩ <;> simp [hb] at h1 h2 h3 <;> omega

/-- Witness for C2: a concrete insert matching the first statistic. -/
theorem claim2_witness :
    countWhere statMen40Yes ⟨2, [(1, ⟨45, "м", "в", 1⟩)]⟩ =
      countWhere statMen40Yes emptyDB + 1 ∧
    countWhere statWomen30No ⟨2, [(1, ⟨45, "м", "в", 1⟩)]⟩ =
      countWhere statWomen30No emptyDB :=
  ⟨(claim2_stat_counts emptyDB _ ⟨45, "м", "в", 1⟩ rfl).1.1 (by decide),
   (claim2_stat_counts emptyDB _ ⟨45, "м", "в", 1⟩ rfl).2.1.2 (by decide)⟩

/-- C3: every row assembled by `add_form` from the validated readers
satisfies all SCHEMA_SQL constraints, so the constraint-violation branch
of the insert is unreachable for records produced through the input
layer; consequently no run of the main loop ever ends in a raised store
error. -/
theorem claim3_constraint_unreachable :
    (∀ toks rest r, addFormRun toks = some (r, rest) →
      r.valid = true ∧ ∀ st : DBState,
        insertRow st r = .ok ⟨st.nextId + 1, st.rows ++ [(st.nextId, r)]⟩) ∧
    (∀ fuel toks db e db', mainLoop fuel toks db ≠ .raised e db') := by
  constructor
  · intro toks rest r h
    have hv := addFormRun_valid h
    exact ⟨hv, fun st => insertRow_ok st r hv⟩
  · exact fun fuel toks db e db' => mainLoop_no_raise fuel toks db e db'

/-- Witness for C3 at a concrete reader transcript and run. -/
theorem claim3_witness :
    (⟨45, "м", "в", 1⟩ : Row).valid = true ∧
    mainLoop 1 ["0"] emptyDB ≠ .raised .constraintViolation emptyDB :=
  ⟨(claim3_constraint_unreachable.1 ["45", "м", "в", "д"] [] ⟨45, "м", "в", 1⟩
      (by decide)).1,
   claim3_constraint_unreachable.2 1 ["0"] emptyDB .constraintViolation emptyDB⟩

/-- C4: `read_int` accepts a token exactly when it parses as an integer
within [lo, hi]; an in-range failure reprompts with the range-specific
message, a parse failure reprompts with the distinct non-numeric message,
the two messages differ, and the reader never returns out of range. -/
theorem claim4_read_int (lo hi : Int) :
    (∀ tok n, readIntStep lo hi tok = .accept n →
        pyParseInt tok = some n ∧ lo ≤ n ∧ n ≤ hi) ∧
    (∀ tok n, pyParseInt tok = some n → ¬(lo ≤ n ∧ n ≤ hi) →
        readIntStep lo hi tok = .reject (rangeMessage lo hi)) ∧
    (∀ tok, pyParseInt tok = none →
        readIntStep lo hi tok = .reject nonNumericMessage) ∧
    rangeMessage lo hi ≠ nonNumericMessage ∧
    (∀ toks n rest, readIntFrom lo hi toks = some (n, rest) →
        lo ≤ n ∧ n ≤ hi) := by
  refine ⟨?_, ?_, ?_, messages_distinct lo hi, ?_⟩
  · exact fun tok n h => readIntStep_accept h
  · intro tok n hp hb
    simp [readIntStep, hp, hb]
  · intro tok hp
    simp [readIntStep, hp]
  · exact fun toks n rest h => readIntFrom_bounds h

/-- Witness for C4 at the program's range [0, 120] and concrete tokens. -/
theorem claim4_witness :
    pyParseInt "45" = some 45 ∧ (0 : Int) ≤ 45 ∧ (45 : Int) ≤ 120 :=
  (claim4_read_int 0 120).1 "45" 45 (by decide)

/-- C5: `read_enum` accepts a token iff its lower-cased form is one of
the declared option codes (case-insensitive matching), and the returned
member is the one whose code matched; stated for both enumerations. -/
theorem claim5_read_enum :
    (∀ tok : String, (readEnumStep Gender.members Gender.value tok).isSome = true ↔
        pyLower tok ∈ Gender.members.map Gender.value) ∧
    (∀ tok g, readEnumStep Gender.members Gender.value tok = some g →
        Gender.value g = pyLower tok) ∧
    (∀ tok : String,
        (readEnumStep Education.members Education.value tok).isSome = true ↔
        pyLower tok ∈ Education.members.map Education.value) ∧
    (∀ tok e, readEnumStep Education.members Education.value tok = some e →
        Education.value e = pyLower tok) ∧
    readEnumStep Gender.members Gender.value "М" = some .male :=
  ⟨fun tok => readEnumStep_isSome Gender.members Gender.value tok,
   fun tok g h => readEnumStep_value h,
   fun tok => readEnumStep_isSome Education.members Education.value tok,
   fun tok e h => readEnumStep_value h,
   by decide⟩

/-- Witness for C5 at a concrete upper-case token. -/
theorem claim5_witness :
    (readEnumStep Gender.members Gender.value "Ж").isSome = true :=
  (claim5_read_enum.1 "Ж").mpr (by decide)

/-- C6 counterexample: no two strings cover everything `read_yes_no`
accepts — the lower-casing makes it accept at least the three pairwise
distinct tokens `"д"`, `"Д"` and `"н"`, so the reader does not accept
exactly two tokens. -/
theorem claim6_counterexample :
    ¬ ∃ t f : String, ∀ s : String, readYesNoStep s ≠ .reject →
        s = t ∨ s = f := by
  rintro ⟨t, f, h⟩
  have h1 := h "д" (by decide)
  have h2 := h "Д" (by decide)
  have h3 := h "н" (by decide)
  rcases h1 with h1 | h1 <;> rcases h2 with h2 | h2 <;>
    rcases h3 with h3 | h3 <;>
    first
      | exact absurd (h1.trans h2.symm) (by decide)
      | exact absurd (h1.trans h3.symm) (by decide)
      | exact absurd (h2.trans h3.symm) (by decide)

/-- C6 amended: after lower-casing, `read_yes_no` accepts exactly the two
tokens `'д'` (mapped to true) and `'н'` (mapped to false); every token
whose lower-cased form is neither causes a reprompt. -/
theorem claim6_yes_no (s : String) :
    (readYesNoStep s = .accept true ↔ pyLower s = "д") ∧
    (readYesNoStep s = .accept false ↔ pyLower s = "н") ∧
    (readYesNoStep s = .reject ↔ pyLower s ≠ "д" ∧ pyLower s ≠ "н") := by
  unfold readYesNoStep
  by_cases hd : pyLower s = "д"
  · simp [hd]
  · by_cases hn : pyLower s = "н"
    · simp [hd, hn]
    · simp [hd, hn]

/-- Witness for C6 at a concrete upper-case token. -/
theorem claim6_witness : readYesNoStep "Д" = .accept true :=
  (claim6_yes_no "Д").1.mpr (by decide)

/-- C7: for every store state, inserting the record
{age 45, male, higher, answered yes} succeeds and raises the
"men over 40, higher education, yes" count by exactly 1 while leaving the
other two counts unchanged; inserting {age 20, female, secondary,
answered no} succeeds and raises the "women under 30, secondary, no"
count by exactly 1. -/
theorem claim7_scenarios (st : DBState) :
    (∃ st', insertRow st (Form.toRow ⟨45, .male, .higher, true⟩) = .ok st' ∧
      countWhere statMen40Yes st' = countWhere statMen40Yes st + 1 ∧
      countWhere statWomen30No st' = countWhere statWomen30No st ∧
      countWhere statMen25Yes st' = countWhere statMen25Yes st) ∧
    (∃ st', insertRow st (Form.toRow ⟨20, .female, .secondary, false⟩) = .ok st' ∧
      countWhere statWomen30No st' = countWhere statWomen30No st + 1) := by
  constructor
  · have hins := insertRow_ok st (Form.toRow ⟨45, .male, .higher, true⟩)
      (by decide)
    refine ⟨_, hins, ?_, ?_, ?_⟩
    · rw [countWhere_insert _ hins,
        show statMen40Yes (Form.toRow ⟨45, .male, .higher, true⟩) = true from by decide]
      simp
    · rw [countWhere_insert _ hins,
        show statWomen30No (Form.toRow ⟨45, .male, .higher, true⟩) = false from by decide]
      simp
    · rw [countWhere_insert _ hins,
        show statMen25Yes (Form.toRow ⟨45, .male, .higher, true⟩) = false from by decide]
      simp
  · have hins := insertRow_ok st (Form.toRow ⟨20, .female, .secondary, false⟩)
      (by decide)
    refine ⟨_, hins, ?_⟩
    rw [countWhere_insert _ hins,
      show statWomen30No (Form.toRow ⟨20, .female, .secondary, false⟩) = true from by decide]
    simp

/-- Witness for C7 at the empty store. -/
theorem claim7_witness :
    ∃ st', insertRow emptyDB (Form.toRow ⟨45, .male, .higher, true⟩) = .ok st' ∧
      countWhere statMen40Yes st' = countWhere statMen40Yes emptyDB + 1 ∧
      countWhere statWomen30No st' = countWhere statWomen30No emptyDB ∧
      countWhere statMen25Yes st' = countWhere statMen25Yes emptyDB :=
  (claim7_scenarios emptyDB).1

/-- C8: the menu loop dispatches `'1'` to add-record, `'2'` to list,
`'3'` to statistics, `'0'` to quit, and everything else to the
unrecognized message; only the quit choice leaves the running state, and
a quit choice ends the loop normally with the state unchanged. -/
theorem claim8_menu_state_machine :
    dispatch "1" = .addRecord ∧ dispatch "2" = .listRecords ∧
    dispatch "3" = .showStatistics ∧ dispatch "0" = .quit ∧
    (∀ c, c ≠ "1" → c ≠ "2" → c ≠ "3" → c ≠ "0" → dispatch c = .unknown) ∧
    (∀ c, nextState (dispatch c) = .exited ↔ c = "0") ∧
    (∀ fuel raw toks db, dispatch (menuChoice raw) = .quit →
        mainLoop (fuel + 1) (raw :: toks) db = .quitOk db) := by
  refine ⟨rfl, rfl, rfl, rfl, ?_, ?_, ?_⟩
  · intro c h1 h2 h3 h0
    simp [dispatch, h1, h2, h3, h0]
  · intro c
    unfold dispatch
    split_ifs with e1 e2 e3 e0 <;> simp_all [nextState]
  · intro fuel raw toks db h
    rw [mainLoop, h]

/-- Witness for C8 at a concrete unrecognized choice and a quit run. -/
theorem claim8_witness :
    dispatch "7" = .unknown ∧ mainLoop (0 + 1) [" 0 "] emptyDB = .quitOk emptyDB :=
  ⟨claim8_menu_state_machine.2.2.2.2.1 "7" (by decide) (by decide) (by decide)
      (by decide),
   claim8_menu_state_machine.2.2.2.2.2.2 0 " 0 " [] emptyDB (by decide)⟩

/-- C9: on every terminating run of `main` — a normal quit as well as a
run ended by a raised store error — the connection is closed before the
program ends. -/
theorem claim9_close_on_exit (fuel : Nat) (toks : List String)
    (init : DBState) (r : RunResult) (h : mainRun fuel toks init = some r) :
    r.closed = true := by
  unfold mainRun at h
  split at h
  · cases h; rfl
  · cases h
  · cases h; rfl

/-- Witness for C9 at a concrete quitting run. -/
theorem claim9_witness : (⟨emptyDB, true, none⟩ : RunResult).closed = true :=
  claim9_close_on_exit 1 ["0"] emptyDB ⟨emptyDB, true, none⟩ rfl

/-- C10: the menu choice is stripped before dispatch, so `' 0 '` quits
and `'1 '` selects add-record; the enum and yes/no readers do not strip
(a token with surrounding whitespace is rejected), while the bounded
integer reader tolerates surrounding whitespace through `int` parsing. -/
theorem claim10_strip_behavior :
    menuChoice " 0 " = "0" ∧ dispatch (menuChoice " 0 ") = .quit ∧
    menuChoice "1 " = "1" ∧ dispatch (menuChoice "1 ") = .addRecord ∧
    readEnumStep Gender.members Gender.value " м" = none ∧
    readYesNoStep " д" = .reject ∧
    readIntStep 0 120 " 5 " = .accept 5 := by
  refine ⟨by decide, by decide, by decide, by decide, by decide, by decide,
    by decide⟩

end Population
